import Mathlib

/-!
Shallow embedding of the frame-capture scheduling and lifecycle logic of
`sessionRecordingService.js` (the internal `Recording` object with its
`addFrame` method, and the `startRecording` / `stopRecording` service
operations).

JavaScript nullable numbers are modelled as `Option Int`, where `none`
stands for `null` or `undefined`. JavaScript truthiness of such a value is
`jsTruthy`: `null`, `undefined` and the number `0` are all falsy, every
other number is truthy. This matters because the source guards on
`if (lastFrameTimestamp)` and `if (!timestamp)`, so a timestamp equal to
`0` is indistinguishable from an absent one at those guards.
-/

/-- The `MINIMUM_FRAME_DELAY` constant from the source: the minimum amount
of time between individual frames, in milliseconds. -/
def MINIMUM_FRAME_DELAY : Int := 20

/-- Truthiness of a nullable JavaScript number: `null`/`undefined` (here
`none`) and the number `0` are falsy; every other number is truthy. -/
def jsTruthy : Option Int → Bool
  | none => false
  | some n => n != 0

/-- The two nullable instance variables of a `Recording` object:
`lastFrameTimestamp` (session-clock timestamp of the last written frame)
and `lastFrameLocalTimestamp` (local wall-clock time of that write). Both
are `null` until the first frame is written. -/
structure RecState where
  lastFrameTimestamp : Option Int
  lastFrameLocalTimestamp : Option Int
deriving DecidableEq, Repr

/-- Scheduler state of a freshly constructed `Recording` (both variables
`null`). -/
def initState : RecState := ⟨none, none⟩

/-- One frame as written to the GIF encoder by `addFrame`: the value stored
into `lastFrameTimestamp` at the moment of acceptance, together with the
`delay` option passed to `gif.addFrame`. Only `delay` (with the bitmap) is
visible to the encoder; `ts` records the scheduler bookkeeping. -/
structure GifFrame where
  ts : Option Int
  delay : Int
deriving DecidableEq, Repr

/-- Value of the local variable `timestamp` in `addFrame` after the
derivation step taken when `lastFrameTimestamp` is truthy: a falsy argument
(omitted, or the number `0`) is replaced by
`localTimestamp + lastFrameTimestamp - lastFrameLocalTimestamp`.
`Option.getD 0` models the JavaScript coercion of `null` to `0`; on every
state the service actually reaches with `lastFrameTimestamp` truthy, the
fields read here are present, so the default is never seen. -/
def effTimestamp (st : RecState) (timestamp : Option Int) (localTimestamp : Int) : Int :=
  if jsTruthy timestamp then timestamp.getD 0
  else localTimestamp + st.lastFrameTimestamp.getD 0 - st.lastFrameLocalTimestamp.getD 0

/-- `frameDelay = timestamp - lastFrameTimestamp` as computed by `addFrame`
in the branch where `lastFrameTimestamp` is truthy. -/
def frameDelay (st : RecState) (timestamp : Option Int) (localTimestamp : Int) : Int :=
  effTimestamp st timestamp localTimestamp - st.lastFrameTimestamp.getD 0

/-- `Recording.addFrame(guac, timestamp)` called at local wall-clock time
`localTimestamp`: returns the new scheduler state together with the frame
written to the GIF (`none` when the method returns early because the
computed delay is below `MINIMUM_FRAME_DELAY`). When `lastFrameTimestamp`
is falsy the guard body is skipped, `frameDelay` stays `0`, the frame is
written unconditionally, and the argument `timestamp` is stored as given
(possibly absent). -/
def addFrame (st : RecState) (timestamp : Option Int) (localTimestamp : Int) :
    RecState × Option GifFrame :=
  if jsTruthy st.lastFrameTimestamp then
    let ts := effTimestamp st timestamp localTimestamp
    let d := frameDelay st timestamp localTimestamp
    if d < MINIMUM_FRAME_DELAY then (st, none)
    else (⟨some ts, some localTimestamp⟩, some ⟨some ts, d⟩)
  else
    (⟨timestamp, some localTimestamp⟩, some ⟨timestamp, 0⟩)

/-- One call to `addFrame`: the optional session timestamp argument plus
the local wall-clock time at which the call happens. -/
structure FrameCall where
  timestamp : Option Int
  localTimestamp : Int
deriving DecidableEq, Repr

/-- Run a sequence of `addFrame` calls from a scheduler state, collecting
in order the frames written to the GIF. -/
def runCalls : RecState → List FrameCall → RecState × List GifFrame
  | st, [] => (st, [])
  | st, c :: cs =>
    let r := addFrame st c.timestamp c.localTimestamp
    let rest := runCalls r.1 cs
    (rest.1, r.2.toList ++ rest.2)

example : addFrame initState (some 5) 100 = (⟨some 5, some 100⟩, some ⟨some 5, 0⟩) := by decide

example : addFrame ⟨some 5, some 100⟩ (some 30) 130
    = (⟨some 30, some 130⟩, some ⟨some 30, 25⟩) := by decide

example : addFrame ⟨some 5, some 100⟩ (some 10) 130 = (⟨some 5, some 100⟩, none) := by decide

/-- Lifecycle state of one recording as wired by `startRecording`:
the owned scheduler state, whether `guac.onsync` still holds the
`writeFrame` handler, whether the `checkMouse` interval is still set, and
the frames written to the GIF so far. -/
structure RecSession where
  sched : RecState
  syncInstalled : Bool
  pollActive : Bool
  frames : List GifFrame
deriving DecidableEq, Repr

/-- Session as returned by `startRecording`: fresh scheduler, the sync
handler installed, the mouse-poll interval running, no frames yet. -/
def startSession : RecSession := ⟨initState, true, true, []⟩

/-- External events driving a recording: a Guacamole sync event carrying a
session timestamp, a `checkMouse` interval tick (with whether the cursor
position changed), and the `stopRecording` teardown (which clears
`guac.onsync` and the interval). Callbacks run serialized on the event
loop, so a recording is a fold of these events. -/
inductive RecEv where
  | sync (timestamp : Int) (localTimestamp : Int)
  | poll (moved : Bool) (localTimestamp : Int)
  | stop
deriving DecidableEq, Repr

/-- One event-loop step of a recording. A sync event reaches `addFrame`
only while the handler is installed; a poll tick calls `addFrame` with no
timestamp only while the interval is set and the cursor moved; `stop`
clears the handler and the interval, leaving scheduler state and frames
as they are. -/
def sessStep (s : RecSession) : RecEv → RecSession
  | .sync ts now =>
    if s.syncInstalled then
      let r := addFrame s.sched (some ts) now
      ⟨r.1, s.syncInstalled, s.pollActive, s.frames ++ r.2.toList⟩
    else s
  | .poll moved now =>
    if s.pollActive && moved then
      let r := addFrame s.sched none now
      ⟨r.1, s.syncInstalled, s.pollActive, s.frames ++ r.2.toList⟩
    else s
  | .stop => ⟨s.sched, false, false, s.frames⟩

/-- Fold a sequence of events over a recording session. -/
def sessRun (s : RecSession) (evs : List RecEv) : RecSession :=
  evs.foldl sessStep s

/-- Modelled from the spec: the AngularJS deferred (`$q.defer()`) used by
`stopRecording`. The promise value is `none` while pending; resolving an
already-resolved deferred has no effect (a promise resolves at most once).
Artifacts (the rendered Blob) are identified by an integer tag. -/
structure Deferred where
  value : Option Int
deriving DecidableEq, Repr

/-- The `recordingComplete` handler that `stopRecording` installs on the
GIF encoder's finished notification: it resolves the deferred with the
received blob. -/
def resolveDeferred (d : Deferred) (blob : Int) : Deferred :=
  match d.value with
  | none => ⟨some blob⟩
  | some v => ⟨some v⟩

/-- State of the promise returned by `stopRecording` after the encoder has
emitted the given sequence of finished notifications (the encoder contract
says there will be exactly one, after `render` is triggered). -/
def runFinished (evs : List Int) : Deferred :=
  evs.foldl resolveDeferred ⟨none⟩

/-! ### Helper lemmas about `addFrame` -/

theorem addFrame_falsy (st : RecState) (ts : Option Int) (now : Int)
    (h : jsTruthy st.lastFrameTimestamp = false) :
    addFrame st ts now = (⟨ts, some now⟩, some ⟨ts, 0⟩) := by
  simp [addFrame, h]

theorem addFrame_reject (st : RecState) (ts : Option Int) (now : Int)
    (h : jsTruthy st.lastFrameTimestamp = true)
    (hd : frameDelay st ts now < MINIMUM_FRAME_DELAY) :
    addFrame st ts now = (st, none) := by
  simp [addFrame, h, hd]

theorem addFrame_accept (st : RecState) (ts : Option Int) (now : Int)
    (h : jsTruthy st.lastFrameTimestamp = true)
    (hd : ¬ frameDelay st ts now < MINIMUM_FRAME_DELAY) :
    addFrame st ts now
      = (⟨some (effTimestamp st ts now), some now⟩,
         some ⟨some (effTimestamp st ts now), frameDelay st ts now⟩) := by
  simp [addFrame, h, hd]

/-! ### The chained-delay invariant satisfied by the frames a run writes -/

/-- `consec prev fs`: the frames `fs` were written by `addFrame` calls made
while the scheduler's `lastFrameTimestamp` was `prev` just before the first
of them. While `prev` is truthy, a written frame carries
`ts = prev + delay` (that is, `delay = ts - prev`) with
`delay ≥ MINIMUM_FRAME_DELAY`; while `prev` is falsy the frame is written
with `delay = 0`. Each frame's stored `ts` becomes the `prev` of the rest. -/
def consec : Option Int → List GifFrame → Prop
  | _, [] => True
  | prev, f :: fs =>
    (if jsTruthy prev then
       f.ts = some (prev.getD 0 + f.delay) ∧ MINIMUM_FRAME_DELAY ≤ f.delay
     else f.delay = 0) ∧ consec f.ts fs

theorem consec_runCalls (cs : List FrameCall) (st : RecState) :
    consec st.lastFrameTimestamp (runCalls st cs).2 := by
  induction cs generalizing st with
  | nil => simp [runCalls, consec]
  | cons c cs ih =>
    by_cases h : jsTruthy st.lastFrameTimestamp = true
    · by_cases hd : frameDelay st c.timestamp c.localTimestamp < MINIMUM_FRAME_DELAY
      · rw [runCalls, addFrame_reject st _ _ h hd]
        simpa using ih st
      · rw [runCalls, addFrame_accept st _ _ h hd]
        simp only [Option.toList_some, List.singleton_append, consec, h, if_true]
        refine ⟨⟨?_, by omega⟩,
          ih ⟨some (effTimestamp st c.timestamp c.localTimestamp), some c.localTimestamp⟩⟩
        simp only [frameDelay, Option.some.injEq]
        omega
    · have h' : jsTruthy st.lastFrameTimestamp = false := by simpa using h
      rw [runCalls, addFrame_falsy st _ _ h']
      simp only [Option.toList_some, List.singleton_append, consec]
      refine ⟨?_, ih ⟨c.timestamp, some c.localTimestamp⟩⟩
      simp [h']

/-! ### Further helper lemmas -/

theorem addFrame_delay_cases (st : RecState) (ts : Option Int) (now : Int)
    (st' : RecState) (f : GifFrame) (hf : addFrame st ts now = (st', some f)) :
    f.delay = 0 ∨ MINIMUM_FRAME_DELAY ≤ f.delay := by
  by_cases h : jsTruthy st.lastFrameTimestamp = true
  · by_cases hd : frameDelay st ts now < MINIMUM_FRAME_DELAY
    · rw [addFrame_reject st ts now h hd] at hf
      exact absurd (congrArg Prod.snd hf : (none : Option GifFrame) = some f) (by simp)
    · rw [addFrame_accept st ts now h hd] at hf
      have hsnd : some (⟨some (effTimestamp st ts now), frameDelay st ts now⟩ : GifFrame)
          = some f := congrArg Prod.snd hf
      right
      rw [← Option.some.inj hsnd]
      show MINIMUM_FRAME_DELAY ≤ frameDelay st ts now
      omega
  · rw [addFrame_falsy st ts now (by simpa using h)] at hf
    have hsnd : some (⟨ts, 0⟩ : GifFrame) = some f := congrArg Prod.snd hf
    left
    rw [← Option.some.inj hsnd]

theorem runCalls_delay_nonneg (cs : List FrameCall) (st : RecState) :
    ∀ f ∈ (runCalls st cs).2, 0 ≤ f.delay := by
  induction cs generalizing st with
  | nil => simp [runCalls]
  | cons c cs ih =>
    intro f hf
    rw [runCalls] at hf
    simp only [List.mem_append] at hf
    rcases hf with hf | hf
    · rcases hr : (addFrame st c.timestamp c.localTimestamp).2 with _ | g
      · simp [hr] at hf
      · rw [hr] at hf
        simp only [Option.toList_some, List.mem_singleton] at hf
        subst hf
        rcases addFrame_delay_cases st c.timestamp c.localTimestamp
            (addFrame st c.timestamp c.localTimestamp).1 f
            (by rw [← hr]) with h0 | h20
        · omega
        · have : (0 : Int) < MINIMUM_FRAME_DELAY := by decide
          omega
    · exact ih _ f hf

theorem runCalls_falsy_congr (cs : List FrameCall) (s1 s2 : RecState)
    (h1 : jsTruthy s1.lastFrameTimestamp = false)
    (h2 : jsTruthy s2.lastFrameTimestamp = false) :
    (runCalls s1 cs).2.map GifFrame.delay = (runCalls s2 cs).2.map GifFrame.delay := by
  cases cs with
  | nil => simp [runCalls]
  | cons c cs =>
    rw [runCalls, runCalls, addFrame_falsy s1 _ _ h1, addFrame_falsy s2 _ _ h2]

theorem runCalls_local_present (cs : List FrameCall) (st : RecState)
    (h : st.lastFrameTimestamp ≠ none → st.lastFrameLocalTimestamp ≠ none) :
    (runCalls st cs).1.lastFrameTimestamp ≠ none →
      (runCalls st cs).1.lastFrameLocalTimestamp ≠ none := by
  induction cs generalizing st with
  | nil => simpa [runCalls] using h
  | cons c cs ih =>
    rw [runCalls]
    by_cases ht : jsTruthy st.lastFrameTimestamp = true
    · by_cases hd : frameDelay st c.timestamp c.localTimestamp < MINIMUM_FRAME_DELAY
      · rw [addFrame_reject st _ _ ht hd]
        exact ih st h
      · rw [addFrame_accept st _ _ ht hd]
        exact ih _ (by intro _; simp)
    · rw [addFrame_falsy st _ _ (by simpa using ht)]
      exact ih _ (by intro _; simp)

theorem sessStep_stopped (s : RecSession) (e : RecEv)
    (hs : s.syncInstalled = false) (hp : s.pollActive = false) :
    sessStep s e = s := by
  cases e with
  | sync ts now => simp [sessStep, hs]
  | poll moved now => simp [sessStep, hp]
  | stop =>
    cases s
    simp_all [sessStep]

theorem sessRun_stopped (evs : List RecEv) (s : RecSession)
    (hs : s.syncInstalled = false) (hp : s.pollActive = false) :
    sessRun s evs = s := by
  induction evs with
  | nil => rfl
  | cons e evs ih =>
    rw [sessRun, List.foldl_cons, sessStep_stopped s e hs hp]
    exact ih

theorem foldl_resolved (evs : List Int) (v : Int) :
    evs.foldl resolveDeferred ⟨some v⟩ = ⟨some v⟩ := by
  induction evs with
  | nil => rfl
  | cons b evs ih =>
    rw [List.foldl_cons]
    exact ih

theorem addFrame_eq_of_eff (st : RecState) (t1 t2 : Option Int) (now : Int)
    (h : jsTruthy st.lastFrameTimestamp = true)
    (he : effTimestamp st t1 now = effTimestamp st t2 now) :
    addFrame st t1 now = addFrame st t2 now := by
  simp [addFrame, h, frameDelay, he]

/-! ### Claim C1 -/

/-- Claim C1 exactly as stated: starting from a fresh scheduler, `addFrame`
calls with session timestamps 0, 10, 25 (at local wall-clock times `L1`,
`L2`, `L3`) write exactly two frames with delays 0 and 25, the second call
being rejected. -/
def claimC1 (L1 L2 L3 : Int) : Prop :=
  (runCalls initState
      [⟨some 0, L1⟩, ⟨some 10, L2⟩, ⟨some 25, L3⟩]).2.map GifFrame.delay = [0, 25] ∧
  (addFrame (addFrame initState (some 0) L1).1 (some 10) L2).2 = none

/-- C1 fails on the code: with session timestamps 0, 10, 25 at local times
100, 110, 125, the first call stores `lastFrameTimestamp = 0`, which is
falsy, so the second call is accepted with delay 0 (not rejected) and the
third call (delay 25 − 10 = 15 < 20) is rejected; the written delays are
[0, 0], not [0, 25]. -/
theorem C1_counterexample : ¬ claimC1 100 110 125 := by
  unfold claimC1
  decide

/-- Claim C1, amended (the counterexample forces a truthy first timestamp;
shifting the scenario by one millisecond preserves it): with session
timestamps 1, 11, 26, at every choice of local times, the first call is
accepted with delay 0, the second is rejected (delay 10 is below the 20 ms
minimum), the third is accepted with delay 25, and exactly two frames with
delays 0 and 25 are written to the encoder. -/
theorem C1_scenario (L1 L2 L3 : Int) :
    (runCalls initState
        [⟨some 1, L1⟩, ⟨some 11, L2⟩, ⟨some 26, L3⟩]).2.map GifFrame.delay = [0, 25] ∧
    (addFrame (addFrame initState (some 1) L1).1 (some 11) L2).2 = none := by
  constructor
  · simp [runCalls, addFrame, frameDelay, effTimestamp, jsTruthy, initState,
      MINIMUM_FRAME_DELAY]
  · simp [addFrame, frameDelay, effTimestamp, jsTruthy, initState, MINIMUM_FRAME_DELAY]

/-! ### Claim C2 -/

/-- Claim C2 as stated, applied to the frame list of one run: every two
consecutively written frames `f` then `g` satisfy
`g.delay = timestamp(g) - timestamp(f)` and
`MINIMUM_FRAME_DELAY ≤ g.delay`. -/
def consecSpec : List GifFrame → Prop
  | f :: g :: fs =>
    (∃ v w, f.ts = some v ∧ g.ts = some w ∧ g.delay = w - v ∧
        MINIMUM_FRAME_DELAY ≤ g.delay) ∧
      consecSpec (g :: fs)
  | _ => True

/-- C2 fails on the code: the calls with session timestamps 0 then 10 both
write a frame (timestamp 0 is stored falsy, so the second call resets), and
the second frame's delay is 0, which is neither `10 - 0` nor at least the
20 ms minimum. -/
theorem C2_counterexample :
    ¬ consecSpec (runCalls initState [⟨some 0, 0⟩, ⟨some 10, 5⟩]).2 := by
  have h : (runCalls initState [⟨some 0, 0⟩, ⟨some 10, 5⟩]).2
      = [⟨some 0, 0⟩, ⟨some 10, 0⟩] := by decide
  rw [h]
  intro hc
  simp only [consecSpec] at hc
  obtain ⟨⟨v, w, -, -, -, h20⟩, -⟩ := hc
  exact absurd h20 (by decide)

/-- Claim C2, amended: in any run from a fresh scheduler, as long as the
previously written frame's stored timestamp is truthy (present and
nonzero), the next written frame `g` satisfies
`g.ts = previous + g.delay` (that is, `g.delay = g.ts - previous`) with
`MINIMUM_FRAME_DELAY ≤ g.delay`; a frame written while the stored timestamp
is falsy (absent, or the number 0) carries delay 0. -/
theorem C2_delay_chain (calls : List FrameCall) :
    consec none (runCalls initState calls).2 :=
  consec_runCalls calls initState

/-! ### Claim C3 -/

/-- Claim C3 exactly as stated: the first `addFrame` call on a fresh
scheduler accepts with delay 0 and records
`lastFrameTimestamp = timestamp` (or the current local time if the
timestamp was omitted) and `lastFrameLocalTimestamp = now`. -/
def claimC3 (ts : Option Int) (now : Int) : Prop :=
  (addFrame initState ts now).2.map GifFrame.delay = some 0 ∧
  (addFrame initState ts now).1 = ⟨some (ts.getD now), some now⟩

/-- C3 fails on the code: a first call with the timestamp omitted at local
time 100 stores `lastFrameTimestamp = undefined` (the raw argument), not
the local time 100 as the claim says. -/
theorem C3_counterexample : ¬ claimC3 none 100 := by
  unfold claimC3
  decide

/-- Claim C3, amended: the first `addFrame` call on a fresh scheduler
always accepts with delay 0 and records
`lastFrameTimestamp = timestamp` exactly as supplied (so it stays absent
when the timestamp is omitted, rather than defaulting to the local time)
and `lastFrameLocalTimestamp = now`. -/
theorem C3_first_call (ts : Option Int) (now : Int) :
    addFrame initState ts now = (⟨ts, some now⟩, some ⟨ts, 0⟩) :=
  addFrame_falsy initState ts now rfl

/-! ### Claim C4 -/

/-- Claim C4 exactly as stated, for the scheduler state reached by one call
sequence from a fresh scheduler: `lastFrameTimestamp` and
`lastFrameLocalTimestamp` are both absent or both present. -/
def claimC4 (calls : List FrameCall) : Prop :=
  ((runCalls initState calls).1.lastFrameTimestamp = none ∧
     (runCalls initState calls).1.lastFrameLocalTimestamp = none) ∨
  ((runCalls initState calls).1.lastFrameTimestamp ≠ none ∧
     (runCalls initState calls).1.lastFrameLocalTimestamp ≠ none)

/-- C4 fails on the code: after a single accepted call with the timestamp
omitted, the reached state is `⟨none, some 100⟩` — `lastFrameTimestamp`
is absent while `lastFrameLocalTimestamp` is present. -/
theorem C4_counterexample : ¬ claimC4 [⟨none, 100⟩] := by
  unfold claimC4
  decide

/-- Claim C4, amended: only one direction of the invariant holds on the
code — in every reachable scheduler state, if `lastFrameTimestamp` is
present then so is `lastFrameLocalTimestamp`. (Both fields are assigned on
every acceptance, but `lastFrameTimestamp` is assigned the raw argument,
which may be absent, while `lastFrameLocalTimestamp` always receives the
present local time.) -/
theorem C4_presence (calls : List FrameCall)
    (h : (runCalls initState calls).1.lastFrameTimestamp ≠ none) :
    (runCalls initState calls).1.lastFrameLocalTimestamp ≠ none :=
  runCalls_local_present calls initState (fun hn => absurd rfl hn) h

/-- Witness for C4_presence at the one-call sequence with timestamp 5. -/
theorem C4_witness :
    (runCalls initState [⟨some 5, 3⟩]).1.lastFrameLocalTimestamp ≠ none :=
  C4_presence [⟨some 5, 3⟩] (by decide)

/-! ### Claim C5 -/

/-- Claim C5 exactly as stated, for the state reached by one call sequence:
if at least one frame has been written, then calling `addFrame` with the
timestamp omitted at local time `now` uses the synthesized timestamp
`now + (lastFrameTimestamp - lastFrameLocalTimestamp)` — that is, the call
behaves exactly like a call supplied with that timestamp (which requires
both recorded fields to be present). -/
def claimC5 (calls : List FrameCall) (now : Int) : Prop :=
  (runCalls initState calls).2 ≠ [] →
  ∃ L W, (runCalls initState calls).1.lastFrameTimestamp = some L ∧
    (runCalls initState calls).1.lastFrameLocalTimestamp = some W ∧
    addFrame (runCalls initState calls).1 none now
      = addFrame (runCalls initState calls).1 (some (now + (L - W))) now

/-- C5 fails on the code: after one accepted frame with supplied timestamp
0 (state `⟨some 0, some 100⟩`), an omitted-timestamp call at local time 105
does not use the projected timestamp 105 + (0 − 100) = 5 (which would give
delay 5 and a rejection): `lastFrameTimestamp = 0` is falsy, so the call is
accepted with delay 0 and stores an absent timestamp. -/
theorem C5_counterexample : ¬ claimC5 [⟨some 0, 100⟩] 105 := by
  intro h
  obtain ⟨L, W, hL, hW, heq⟩ := h (by decide)
  have hst : (runCalls initState [⟨some 0, 100⟩]).1 = ⟨some 0, some 100⟩ := by decide
  rw [hst] at hL hW heq
  obtain rfl : L = 0 := (Option.some.inj hL).symm
  obtain rfl : W = 100 := (Option.some.inj hW).symm
  exact absurd heq (by decide)

/-- Claim C5, amended: whenever the recorded `lastFrameTimestamp` is
truthy (present and nonzero) and `lastFrameLocalTimestamp = W` is present,
an `addFrame` call with the timestamp omitted at local time `now` behaves
exactly like a call supplied with the projected timestamp
`now + (lastFrameTimestamp - W)`. (When the recorded timestamp is falsy the
code performs no projection at all and accepts with delay 0.) -/
theorem C5_projection (st : RecState) (L W now : Int)
    (hL : st.lastFrameTimestamp = some L) (hL0 : L ≠ 0)
    (hW : st.lastFrameLocalTimestamp = some W) :
    addFrame st none now = addFrame st (some (now + (L - W))) now := by
  have ht : jsTruthy st.lastFrameTimestamp = true := by
    rw [hL]
    simp [jsTruthy, hL0]
  apply addFrame_eq_of_eff st none (some (now + (L - W))) now ht
  by_cases h0 : now + (L - W) = 0
  · simp [effTimestamp, jsTruthy, hL, hW, h0]
  · simp [effTimestamp, jsTruthy, hL, hW, h0]
    omega

/-- Witness for C5_projection: from state `⟨some 30, some 100⟩` at local
time 200 the omitted-timestamp call equals the call with the projected
timestamp 200 + (30 − 100). -/
theorem C5_witness :
    addFrame ⟨some 30, some 100⟩ none 200
      = addFrame ⟨some 30, some 100⟩ (some (200 + (30 - 100))) 200 :=
  C5_projection ⟨some 30, some 100⟩ 30 100 200 rfl (by decide) rfl

/-! ### Claim C6 -/

/-- Claim C6 (confirmed): whenever `addFrame` computes, relative to the
recorded last frame timestamp (the truthy guard), a `frameDelay` strictly
below `MINIMUM_FRAME_DELAY`, the call returns early: the scheduler state is
returned completely unchanged and no frame is written to the encoder. -/
theorem C6_reject_unchanged (st : RecState) (ts : Option Int) (now : Int)
    (h : jsTruthy st.lastFrameTimestamp = true)
    (hd : frameDelay st ts now < MINIMUM_FRAME_DELAY) :
    addFrame st ts now = (st, none) :=
  addFrame_reject st ts now h hd

/-- Witness for C6_reject_unchanged: from state `⟨some 30, some 100⟩` a
call with timestamp 35 has delay 5 < 20 and changes nothing. -/
theorem C6_witness :
    addFrame ⟨some 30, some 100⟩ (some 35) 200 = (⟨some 30, some 100⟩, none) :=
  C6_reject_unchanged ⟨some 30, some 100⟩ (some 35) 200 (by decide) (by decide)

/-! ### Claim C7 -/

/-- Claim C7 (confirmed): `addFrame` is total (the embedding is a total
function — a non-monotonic timestamp cannot raise an error), a computed
delay that is zero or negative relative to the recorded last frame causes a
rejection with no state change, and across every interleaving of
timestamped and untimestamped calls from a fresh scheduler, every frame
actually written carries a nonnegative delay — a negative delay is never
classified as accepted. -/
theorem C7_nonmonotonic_safe :
    (∀ (st : RecState) (ts : Option Int) (now : Int),
        jsTruthy st.lastFrameTimestamp = true →
        frameDelay st ts now ≤ 0 → addFrame st ts now = (st, none)) ∧
    (∀ calls : List FrameCall, ∀ f ∈ (runCalls initState calls).2, 0 ≤ f.delay) := by
  constructor
  · intro st ts now h hd
    apply addFrame_reject st ts now h
    have h20 : (0 : Int) < MINIMUM_FRAME_DELAY := by decide
    omega
  · intro calls f hf
    exact runCalls_delay_nonneg calls initState f hf

/-- Witness for C7_nonmonotonic_safe: a call going backwards in time
(timestamp 10 after recorded timestamp 30) is rejected with no state
change, and the frame written by a first call has nonnegative delay. -/
theorem C7_witness :
    addFrame ⟨some 30, some 100⟩ (some 10) 200 = (⟨some 30, some 100⟩, none) ∧
    (0 : Int) ≤ (⟨some 1, 0⟩ : GifFrame).delay := by
  constructor
  · exact C7_nonmonotonic_safe.1 ⟨some 30, some 100⟩ (some 10) 200 (by decide) (by decide)
  · exact C7_nonmonotonic_safe.2 [⟨some 1, 0⟩] ⟨some 1, 0⟩ (by decide)

/-! ### Claim C8 -/

/-- Claim C8 (confirmed): `stopRecording` clears the `onsync` handler and
the mouse-poll interval before returning; from that point on, no sequence
of sync events or poll ticks ever reaches `addFrame` again — the frames
written to the encoder stay exactly those written before the stop, and the
handler and interval stay cleared. -/
theorem C8_stop_stops (s : RecSession) (evs : List RecEv) :
    (sessRun (sessStep s .stop) evs).frames = s.frames ∧
    (sessRun (sessStep s .stop) evs).syncInstalled = false ∧
    (sessRun (sessStep s .stop) evs).pollActive = false := by
  have h : sessRun (sessStep s .stop) evs = sessStep s .stop :=
    sessRun_stopped evs (sessStep s .stop) rfl rfl
  rw [h]
  exact ⟨rfl, rfl, rfl⟩

/-! ### Claim C9 -/

/-- Claim C9 (confirmed): the promise returned by `stopRecording` is
pending while the encoder has not yet emitted its finished notification,
and once the encoder finishes with a blob the promise is resolved with
exactly that blob; resolving is effective only once, so any further
notification leaves the first resolution in place. (The deferred is
modelled from the spec as the external `$q` collaborator; the encoder
contract emits finished exactly once, after `gif.render()`.) -/
theorem C9_stop_promise :
    (runFinished []).value = none ∧
    ∀ (b : Int) (rest : List Int), (runFinished (b :: rest)).value = some b := by
  refine ⟨rfl, ?_⟩
  intro b rest
  rw [runFinished, List.foldl_cons]
  show (rest.foldl resolveDeferred (resolveDeferred ⟨none⟩ b)).value = some b
  have hres : resolveDeferred ⟨none⟩ b = ⟨some b⟩ := rfl
  rw [hres, foldl_resolved]

/-! ### Claim C10 -/

/-- Claim C10 (confirmed): a supplied session timestamp equal to 0 is
treated the same as an omitted timestamp — the call makes the same
accept/reject decision with the same delay, and every future call sequence
writes the same delays to the encoder — and after a frame has been
accepted with recorded timestamp 0, the next call behaves exactly as on a
fresh scheduler (it accepts unconditionally with delay 0, whatever its
timestamp and however little session time has elapsed). -/
theorem C10_zero_reset :
    (∀ (st : RecState) (now : Int) (calls : List FrameCall),
        (addFrame st (some 0) now).2.map GifFrame.delay
          = (addFrame st none now).2.map GifFrame.delay ∧
        (runCalls (addFrame st (some 0) now).1 calls).2.map GifFrame.delay
          = (runCalls (addFrame st none now).1 calls).2.map GifFrame.delay) ∧
    (∀ (st : RecState) (ts : Option Int) (now : Int),
        st.lastFrameTimestamp = some 0 →
        addFrame st ts now = addFrame initState ts now) := by
  constructor
  · intro st now calls
    by_cases h : jsTruthy st.lastFrameTimestamp = true
    · have heq : addFrame st (some 0) now = addFrame st none now :=
        addFrame_eq_of_eff st (some 0) none now h (by simp [effTimestamp, jsTruthy])
      rw [heq]
      exact ⟨rfl, rfl⟩
    · have h' : jsTruthy st.lastFrameTimestamp = false := by simpa using h
      rw [addFrame_falsy st (some 0) now h', addFrame_falsy st none now h']
      refine ⟨rfl, ?_⟩
      exact runCalls_falsy_congr calls ⟨some 0, some now⟩ ⟨none, some now⟩ rfl rfl
  · intro st ts now h0
    have h' : jsTruthy st.lastFrameTimestamp = false := by
      rw [h0]
      decide
    rw [addFrame_falsy st ts now h', addFrame_falsy initState ts now rfl]

/-- Witness for C10_zero_reset: after an accepted frame with recorded
timestamp 0 (state `⟨some 0, some 50⟩`), a call with timestamp 7 behaves
exactly as on a fresh scheduler. -/
theorem C10_witness :
    addFrame ⟨some 0, some 50⟩ (some 7) 9 = addFrame initState (some 7) 9 :=
  C10_zero_reset.2 ⟨some 0, some 50⟩ (some 7) 9 rfl
